import Mathlib

/-!
# Dione cryptography: Diffie-Hellman keypairs and the public-key validator

A shallow embedding of `go/dione-crypto/keypair.go`.

* Go `byte` is `Fin 256`; byte operations are the operations of `Nat` taken
  modulo `256`.
* A Go slice `[]byte` is a `List Byte`; a Go array `[32]byte` is a list that
  carries the proof that its length is `32`.
* A run-time panic of Go (index out of range, nil dereference, explicit
  `panic`) is the result `none`.
* The curve arithmetic, SHA-256 and the point (de)compression come from
  libraries outside the package; they are the fields of `Provider`.
-/

namespace DioneCrypto

/-! ## Bytes -/

/-- Go `byte`. -/
abbrev Byte := Fin 256

/-- Go `x ^ y` on bytes. -/
def Byte.xor (x y : Byte) : Byte := ⟨(x.val ^^^ y.val) % 256, Nat.mod_lt _ (by decide)⟩

/-- Go `x | y` on bytes. -/
def Byte.or (x y : Byte) : Byte := ⟨(x.val ||| y.val) % 256, Nat.mod_lt _ (by decide)⟩

/-- Go `[32]byte`. -/
structure Bytes32 where
  data : List Byte
  size : data.length = 32
deriving DecidableEq

/-- The assignment `a[i] = b` on a `[32]byte`. -/
def Bytes32.set (a : Bytes32) (i : Nat) (b : Byte) : Bytes32 :=
  ⟨a.data.set i b, by rw [List.length_set]; exact a.size⟩

/-- The zero value of `[32]byte` (`var k [32]byte`). -/
def Bytes32.zero : Bytes32 := ⟨List.replicate 32 0, by decide⟩

/-- A `[32]byte` holding `b` followed by 31 zero bytes. -/
def Bytes32.single (b : Byte) : Bytes32 := ⟨b :: List.replicate 31 0, by simp⟩

/-! ## `crypto/subtle` -/

/-- Go `subtle.ConstantTimeByteEq(x, y uint8) int`, which is
`int((uint32(x^y) - 1) >> 31)` with 32-bit wrap-around. -/
def ConstantTimeByteEq (x y : Byte) : Int :=
  Int.ofNat ((((Byte.xor x y).val + 2 ^ 32 - 1) % 2 ^ 32) >>> 31)

/-- The loop of `subtle.ConstantTimeCompare`: `v |= x[i] ^ y[i]` for every index. -/
def ctAccumulate : List Byte → List Byte → Byte → Byte
  | x :: xs, y :: ys, v => ctAccumulate xs ys (Byte.or v (Byte.xor x y))
  | _, _, v => v

/-- Go `subtle.ConstantTimeCompare(x, y []byte) int`: `0` at once when the lengths
differ, otherwise the OR of the XORs of all byte pairs compared with zero. -/
def ConstantTimeCompare (x y : List Byte) : Int :=
  if x.length ≠ y.length then 0
  else ConstantTimeByteEq (ctAccumulate x y 0) 0

/-! ## The validator -/

/-- The local table `forbiddenCurveValues` of `validatePublicKey`. -/
def forbiddenCurveValues : List (List Byte) :=
  [ [0, 0, 0, 0, 0, 0, 0, 0, 0, 0, 0, 0, 0, 0, 0, 0, 0, 0, 0, 0, 0, 0, 0, 0, 0, 0, 0, 0, 0, 0, 0, 0],
    [1, 0, 0, 0, 0, 0, 0, 0, 0, 0, 0, 0, 0, 0, 0, 0, 0, 0, 0, 0, 0, 0, 0, 0, 0, 0, 0, 0, 0, 0, 0, 0],
    [224, 235, 122, 124, 59, 65, 184, 174, 22, 86, 227, 250, 241, 159, 196, 106, 218, 9, 141, 235, 156, 50, 177, 253, 134, 98, 5, 22, 95, 73, 184, 0],
    [95, 156, 149, 188, 163, 80, 140, 36, 177, 208, 177, 85, 156, 131, 239, 91, 4, 68, 92, 196, 88, 28, 142, 134, 216, 34, 78, 221, 208, 159, 17, 87],
    [236, 255, 255, 255, 255, 255, 255, 255, 255, 255, 255, 255, 255, 255, 255, 255, 255, 255, 255, 255, 255, 255, 255, 255, 255, 255, 255, 255, 255, 255, 255, 127],
    [237, 255, 255, 255, 255, 255, 255, 255, 255, 255, 255, 255, 255, 255, 255, 255, 255, 255, 255, 255, 255, 255, 255, 255, 255, 255, 255, 255, 255, 255, 255, 127],
    [238, 255, 255, 255, 255, 255, 255, 255, 255, 255, 255, 255, 255, 255, 255, 255, 255, 255, 255, 255, 255, 255, 255, 255, 255, 255, 255, 255, 255, 255, 255, 127],
    [205, 235, 122, 124, 59, 65, 184, 174, 22, 86, 227, 250, 241, 159, 196, 106, 218, 9, 141, 235, 156, 50, 177, 253, 134, 98, 5, 22, 95, 73, 184, 128],
    [76, 156, 149, 188, 163, 80, 140, 36, 177, 208, 177, 85, 156, 131, 239, 91, 4, 68, 92, 196, 88, 28, 142, 134, 216, 34, 78, 221, 208, 159, 17, 215],
    [217, 255, 255, 255, 255, 255, 255, 255, 255, 255, 255, 255, 255, 255, 255, 255, 255, 255, 255, 255, 255, 255, 255, 255, 255, 255, 255, 255, 255, 255, 255, 255],
    [218, 255, 255, 255, 255, 255, 255, 255, 255, 255, 255, 255, 255, 255, 255, 255, 255, 255, 255, 255, 255, 255, 255, 255, 255, 255, 255, 255, 255, 255, 255, 255],
    [219, 255, 255, 255, 255, 255, 255, 255, 255, 255, 255, 255, 255, 255, 255, 255, 255, 255, 255, 255, 255, 255, 255, 255, 255, 255, 255, 255, 255, 255, 255, 25] ]

/-- The `for _, testValue := range ...` loop of `validatePublicKey` over the
remaining table entries: `false` at the first entry that compares equal,
`true` when the entries are exhausted. -/
def validateLoop (k : List Byte) : List (List Byte) → Bool
  | [] => true
  | testValue :: rest =>
    if ConstantTimeCompare k testValue = 1 then false else validateLoop k rest

/-- Go `validatePublicKey(k []byte) bool`. -/
def validatePublicKey (k : List Byte) : Bool :=
  validateLoop k forbiddenCurveValues

/-- The same loop as `validateLoop`, also counting the calls of
`subtle.ConstantTimeCompare` it makes; `n` is the number made so far. -/
def validateLoopCount (k : List Byte) : List (List Byte) → Nat → Bool × Nat
  | [], n => (true, n)
  | testValue :: rest, n =>
    if ConstantTimeCompare k testValue = 1 then (false, n + 1)
    else validateLoopCount k rest (n + 1)

/-- The result of `validatePublicKey(k)` together with the number of constant-time
comparisons the call performed. -/
def validatePublicKeyCount (k : List Byte) : Bool × Nat :=
  validateLoopCount k forbiddenCurveValues 0

/-! ## Errors, curve tags and the wire message -/

/-- The four error values of the package. -/
inductive Err
  | WrongCurveType
  | ErrorUnmarshalCurve
  | PublicKeyVerificationError
  | PublicKeyLengthError
deriving DecidableEq, Repr

/-- The constant `P256 = iota`. -/
def P256 : Int := 0

/-- The constant `Curve25519`, the second of the `iota` block. -/
def Curve25519 : Int := 1

/-- Modelled from the spec: the enum constant `key_exchange_proto.PublicKey_P256`
of the generated message package, which is not among the sources; the wire
schema gives `P256 = 0`. -/
def PublicKey_P256 : Int := 0

/-- Modelled from the spec: the enum constant
`key_exchange_proto.PublicKey_Curve25519` of the generated message package,
which is not among the sources; the wire schema gives `Curve25519 = 1`. -/
def PublicKey_Curve25519 : Int := 1

/-- Modelled from the spec: the message type `key_exchange_proto.PublicKey` of the
generated message package, which is not among the sources: a curve tag (an
enum carried as an integer) and the raw key bytes. -/
structure PublicKey where
  CurveType : Int
  PublicKeyData : List Byte
deriving DecidableEq

/-! ## The Curve25519 variant -/

/-- Go `Curve25519DhKeypair`. -/
structure Curve25519DhKeypair where
  curve : Int
  privateKey : Bytes32
  publicKey : Bytes32
deriving DecidableEq

/-- Go `(c *Curve25519DhKeypair) GetPublicKey`. -/
def Curve25519DhKeypair.GetPublicKey (c : Curve25519DhKeypair) : Bytes32 :=
  c.publicKey

/-- Go `(c *Curve25519DhKeypair) ExportPublicKey`. -/
def Curve25519DhKeypair.ExportPublicKey (c : Curve25519DhKeypair) : PublicKey :=
  { CurveType := PublicKey_Curve25519, PublicKeyData := c.publicKey.data }

/-- The copy loop of `ImportPublicKey`, `c.publicKey[i] = publicKey[i]`, from index
`i` for `n` more iterations. Reading `publicKey[i]` past the end of the slice
is a run-time panic, `none`. -/
def copyLoop (publicKey : List Byte) : Nat → Nat → Bytes32 → Option Bytes32
  | _, 0, dst => some dst
  | i, n + 1, dst =>
    match publicKey[i]? with
    | none => none
    | some b => copyLoop publicKey (i + 1) n (dst.set i b)

/-- Go `(c *Curve25519DhKeypair) ImportPublicKey`: the keypair after the call and
the returned error (`none` for `nil`); the outer `none` is a run-time panic. -/
def Curve25519DhKeypair.ImportPublicKey (c : Curve25519DhKeypair) (proto : PublicKey) :
    Option (Curve25519DhKeypair × Option Err) :=
  if c.curve ≠ Curve25519 ∨ proto.CurveType ≠ PublicKey_Curve25519 then
    some (c, some Err.WrongCurveType)
  else
    let publicKey := proto.PublicKeyData
    if publicKey.length ≠ c.publicKey.data.length then
      some (c, some Err.PublicKeyLengthError)
    else if !validatePublicKey publicKey then
      some (c, some Err.PublicKeyVerificationError)
    else
      match copyLoop publicKey 0 32 c.publicKey with
      | none => none
      | some pk => some ({ c with publicKey := pk }, none)

/-! ## The external collaborators -/

/-- Values of the interface `elliptic.Curve`: the curves of the standard library. -/
inductive Curve
  | P224
  | P256
  | P384
  | P521
deriving DecidableEq, Repr

/-- The library functions the package calls: `Curve.ScalarMult`,
`Curve.ScalarBaseMult` (through `ecdsa.GenerateKey`), `sha256.Sum256`,
`elliptic.MarshalCompressed`, `elliptic.UnmarshalCompressed` (a `nil`
coordinate is `none`), `curve25519.X25519` (bytes and error, the error as a
flag) and `curve25519.ScalarBaseMult`. -/
structure Provider where
  ScalarMult : Curve → Int → Int → List Byte → Int × Int
  ScalarBaseMult : Curve → List Byte → Int × Int
  Sum256 : List Byte → Bytes32
  MarshalCompressed : Curve → Int → Int → List Byte
  UnmarshalCompressed : Curve → List Byte → Option Int × Option Int
  X25519 : List Byte → List Byte → List Byte × Bool
  Curve25519ScalarBaseMult : Bytes32 → Bytes32

/-- Big-endian base-256 digits of `n`, most significant first, without leading
zeros; `fuel` bounds the number of digits. -/
def natBytes : Nat → Nat → List Byte
  | 0, _ => []
  | fuel + 1, n =>
    if n = 0 then [] else natBytes fuel (n / 256) ++ [⟨n % 256, Nat.mod_lt _ (by decide)⟩]

/-- Go `(*big.Int).Bytes`: the absolute value as a big-endian byte slice. -/
def bigBytes (x : Int) : List Byte := natBytes x.natAbs x.natAbs

/-! ## The P-256 variant -/

/-- Go `ecdsa.PublicKey`. -/
structure EcdsaPublicKey where
  Curve : Curve
  X : Int
  Y : Int
deriving DecidableEq

/-- Go `ecdsa.PrivateKey`: the embedded public key and the scalar `D`. -/
structure EcdsaPrivateKey where
  PublicKey : EcdsaPublicKey
  D : Int
deriving DecidableEq

/-- Go `P256DhKeypair`; the two key fields are pointers and may be `nil`. -/
structure P256DhKeypair where
  curve : Curve
  privateKey : Option EcdsaPrivateKey
  publicKey : Option EcdsaPublicKey
deriving DecidableEq

/-- Go `(p *P256DhKeypair) ComputeSharedSecret`. The explicit `panic` on two
different curves and the dereference of a `nil` private key are `none`. -/
def P256DhKeypair.ComputeSharedSecret (E : Provider) (p : P256DhKeypair)
    (publicKey : EcdsaPublicKey) : Option (List Byte) :=
  let remoteCurve := publicKey.Curve
  if remoteCurve ≠ p.curve then none
  else
    match p.privateKey with
    | none => none
    | some priv =>
      let shared := (E.ScalarMult remoteCurve publicKey.X publicKey.Y (bigBytes priv.D)).1
      let sharedBytes := E.Sum256 (bigBytes shared)
      let ret : List Byte := List.replicate 32 0
      let ret := ret ++ sharedBytes.data
      some ret

/-- Go `(p *P256DhKeypair) GetPublicKey`. -/
def P256DhKeypair.GetPublicKey (p : P256DhKeypair) : Option EcdsaPublicKey :=
  p.publicKey

/-- Go `(p *P256DhKeypair) ExportPublicKey`; `none` when the public key is `nil`. -/
def P256DhKeypair.ExportPublicKey (E : Provider) (p : P256DhKeypair) : Option PublicKey :=
  match p.publicKey with
  | none => none
  | some pk =>
    some { CurveType := PublicKey_P256,
           PublicKeyData := E.MarshalCompressed Curve.P256 pk.X pk.Y }

/-- Go `(p *P256DhKeypair) ImportPublicKey`: the keypair after the call and the
returned error (`none` for `nil`). -/
def P256DhKeypair.ImportPublicKey (E : Provider) (p : P256DhKeypair) (proto : PublicKey) :
    P256DhKeypair × Option Err :=
  if proto.CurveType ≠ PublicKey_P256 ∨ p.curve ≠ Curve.P256 then
    (p, some Err.WrongCurveType)
  else
    match E.UnmarshalCompressed Curve.P256 proto.PublicKeyData with
    | (some x, some y) =>
      ({ p with publicKey := some { Curve := Curve.P256, X := x, Y := y } }, none)
    | _ => (p, some Err.ErrorUnmarshalCurve)

/-- Go `NewP256DhKeypair` after `ecdsa.GenerateKey` drew the scalar `d`: the
library sets the private key's point to `d` times the base point, and the
constructor copies that point into the public key. -/
def NewP256DhKeypair (E : Provider) (d : Int) : P256DhKeypair :=
  let pt := E.ScalarBaseMult Curve.P256 (bigBytes d)
  let priv : EcdsaPrivateKey := { PublicKey := { Curve := Curve.P256, X := pt.1, Y := pt.2 }, D := d }
  let pub : EcdsaPublicKey := { Curve := Curve.P256, X := priv.PublicKey.X, Y := priv.PublicKey.Y }
  { curve := Curve.P256, privateKey := some priv, publicKey := some pub }

/-- Go `(c *Curve25519DhKeypair) ComputeSharedSecret`: the bytes and the error flag
of `curve25519.X25519(c.privateKey[:], publicKey[:])`. -/
def Curve25519DhKeypair.ComputeSharedSecret (E : Provider) (c : Curve25519DhKeypair)
    (publicKey : Bytes32) : List Byte × Bool :=
  E.X25519 c.privateKey.data publicKey.data

/-- Go `NewCurve25519DhKeypair` on the successive results of `rand.Read` (`none`
is a failed read): the first draw whose public key the validator accepts makes
the keypair, a rejected draw recurses. `none` when a read fails or the listed
draws are used up. -/
def NewCurve25519DhKeypair (E : Provider) : List (Option Bytes32) → Option Curve25519DhKeypair
  | [] => none
  | none :: _ => none
  | some privateKey :: rest =>
    let publicKey := E.Curve25519ScalarBaseMult privateKey
    if validatePublicKey publicKey.data then
      some { curve := Curve25519, privateKey := privateKey, publicKey := publicKey }
    else NewCurve25519DhKeypair E rest

/-! ## Generated keypairs and the commutation of scalar multiplication -/

/-- Whether a P-256 keypair is as `NewP256DhKeypair` leaves it: curve P-256, both
keys present, and the public point equal to the private scalar times the base
point. -/
def P256DhKeypair.isGenerated (E : Provider) (A : P256DhKeypair) : Bool :=
  match A.privateKey, A.publicKey with
  | some priv, some pub =>
    decide (A.curve = Curve.P256) && decide (pub.Curve = Curve.P256) &&
      decide ((pub.X, pub.Y) = E.ScalarBaseMult Curve.P256 (bigBytes priv.D))
  | _, _ => false

/-- Whether the public key of a Curve25519 keypair is its private scalar times the
base point, as `NewCurve25519DhKeypair` leaves it. -/
def Curve25519DhKeypair.isGenerated (E : Provider) (K : Curve25519DhKeypair) : Bool :=
  decide (K.publicKey = E.Curve25519ScalarBaseMult K.privateKey)

/-- The assumption on the curve arithmetic: `a·(b·G) = b·(a·G)`, on P-256 and for
X25519. -/
def Provider.ScalarMultCommutes (E : Provider) : Prop :=
  (∀ a b : List Byte,
      E.ScalarMult Curve.P256 (E.ScalarBaseMult Curve.P256 b).1
          (E.ScalarBaseMult Curve.P256 b).2 a =
        E.ScalarMult Curve.P256 (E.ScalarBaseMult Curve.P256 a).1
          (E.ScalarBaseMult Curve.P256 a).2 b) ∧
    ∀ a b : Bytes32,
      E.X25519 a.data (E.Curve25519ScalarBaseMult b).data =
        E.X25519 b.data (E.Curve25519ScalarBaseMult a).data

/-! ## A small arithmetic to instantiate the theorems -/

/-- The integer a big-endian byte string denotes. -/
def bytesValue (bs : List Byte) : Int :=
  bs.foldl (fun acc b => acc * 256 + (b.val : Int)) 0

/-- A stand-in for the external libraries at concrete inputs: points are pairs of
integers under addition with base point `(1, 2)`, X25519 multiplies byte by
byte with base `9`, the digest is the first 32 bytes of the zero-padded
input, and a compressed point is the byte `2` followed by the bytes of `x`. -/
def sampleProvider : Provider where
  ScalarMult := fun _ x y k => (x * bytesValue k, y * bytesValue k)
  ScalarBaseMult := fun _ k => (1 * bytesValue k, 2 * bytesValue k)
  Sum256 := fun bs => ⟨(bs ++ List.replicate 32 0).take 32, by simp⟩
  MarshalCompressed := fun _ x _ => 2 :: bigBytes x
  UnmarshalCompressed := fun _ bs =>
    match bs with
    | 2 :: rest => (some (bytesValue rest), some 0)
    | _ => (none, none)
  X25519 := fun k u => (List.zipWith (· * ·) k u, false)
  Curve25519ScalarBaseMult := fun k =>
    ⟨List.zipWith (· * ·) k.data (List.replicate 32 9), by simp [k.size]⟩

/-! ## Boundary encodings -/

/-- The prime of Curve25519, `2^255 - 19`. -/
def p25519 : Nat := 2 ^ 255 - 19

/-- The 32-byte little-endian encoding of `n` (of `n` modulo `2^256`). -/
def littleEndian32 (n : Nat) : List Byte :=
  (List.range 32).map fun i => ⟨n / 256 ^ i % 256, Nat.mod_lt _ (by decide)⟩

/-! ## Lemmas on the constant-time comparison -/

theorem Byte.xor_eq_zero_iff (x y : Byte) : Byte.xor x y = 0 ↔ x = y := by
  have hlt : x.val ^^^ y.val < 256 := Nat.xor_lt_two_pow (n := 8) x.isLt y.isLt
  constructor
  · intro h
    have h1 : (x.val ^^^ y.val) % 256 = 0 := congrArg Fin.val h
    rw [Nat.mod_eq_of_lt hlt] at h1
    exact Fin.ext (Nat.xor_eq_zero.mp h1)
  · intro h
    subst h
    apply Fin.ext
    simp [Byte.xor]

theorem nat_or_eq_zero (a b : Nat) (h : a ||| b = 0) : a = 0 ∧ b = 0 := by
  constructor
  · apply Nat.eq_of_testBit_eq
    intro i
    have := congrArg (fun n => Nat.testBit n i) h
    simp only [Nat.testBit_or, Nat.zero_testBit, Bool.or_eq_false_iff] at this
    simp [this.1]
  · apply Nat.eq_of_testBit_eq
    intro i
    have := congrArg (fun n => Nat.testBit n i) h
    simp only [Nat.testBit_or, Nat.zero_testBit, Bool.or_eq_false_iff] at this
    simp [this.2]

theorem Byte.or_eq_zero_iff (v w : Byte) : Byte.or v w = 0 ↔ v = 0 ∧ w = 0 := by
  have hlt : v.val ||| w.val < 256 := Nat.or_lt_two_pow (n := 8) v.isLt w.isLt
  constructor
  · intro h
    have h1 : (v.val ||| w.val) % 256 = 0 := congrArg Fin.val h
    rw [Nat.mod_eq_of_lt hlt] at h1
    obtain ⟨ha, hb⟩ := nat_or_eq_zero _ _ h1
    exact ⟨Fin.ext ha, Fin.ext hb⟩
  · rintro ⟨rfl, rfl⟩
    rfl

theorem ctAccumulate_eq_zero_iff (x y : List Byte) (v : Byte) (hlen : x.length = y.length) :
    ctAccumulate x y v = 0 ↔ v = 0 ∧ x = y := by
  induction x generalizing y v with
  | nil =>
    cases y with
    | nil => simp [ctAccumulate]
    | cons b ys => simp at hlen
  | cons a xs ih =>
    cases y with
    | nil => simp at hlen
    | cons b ys =>
      have hlen2 : xs.length = ys.length := by simpa using hlen
      rw [ctAccumulate, ih ys _ hlen2, Byte.or_eq_zero_iff, Byte.xor_eq_zero_iff]
      constructor
      · rintro ⟨⟨hv, hab⟩, hxy⟩
        exact ⟨hv, by rw [hab, hxy]⟩
      · rintro ⟨hv, hxy⟩
        injection hxy with hab hxy
        exact ⟨⟨hv, hab⟩, hxy⟩

theorem ConstantTimeByteEq_zero (v : Byte) :
    ConstantTimeByteEq v 0 = if v = 0 then 1 else 0 := by
  have hx : (Byte.xor v 0).val = v.val := by
    simp [Byte.xor, Nat.mod_eq_of_lt v.isLt]
  unfold ConstantTimeByteEq
  rw [hx]
  by_cases hv : v = 0
  · subst hv
    simp
  · have hne : v.val ≠ 0 := fun h => hv (Fin.ext h)
    have hlt : v.val < 256 := v.isLt
    rw [if_neg hv]
    have : ((v.val + 2 ^ 32 - 1) % 2 ^ 32) >>> 31 = 0 := by
      rw [Nat.shiftRight_eq_div_pow]
      omega
    rw [this]
    rfl

/-- The library comparison returns `1` exactly on equal slices and `0` otherwise. -/
theorem ConstantTimeCompare_eq (x y : List Byte) :
    ConstantTimeCompare x y = if x = y then 1 else 0 := by
  unfold ConstantTimeCompare
  by_cases hlen : x.length = y.length
  · rw [if_neg (by simpa using hlen), ConstantTimeByteEq_zero]
    have := ctAccumulate_eq_zero_iff x y 0 hlen
    by_cases hxy : x = y
    · rw [if_pos hxy, if_pos (this.mpr ⟨rfl, hxy⟩)]
    · rw [if_neg hxy, if_neg (fun h => hxy (this.mp h).2)]
  · have hxy : x ≠ y := fun h => hlen (by rw [h])
    rw [if_pos hlen, if_neg hxy]

theorem ConstantTimeCompare_eq_one_iff (x y : List Byte) :
    ConstantTimeCompare x y = 1 ↔ x = y := by
  rw [ConstantTimeCompare_eq]
  by_cases h : x = y <;> simp [h]

/-! ## Lemmas on the big-endian bytes of an integer -/

theorem bytesValue_append_singleton (bs : List Byte) (b : Byte) :
    bytesValue (bs ++ [b]) = bytesValue bs * 256 + (b.val : Int) := by
  simp [bytesValue, List.foldl_append]

/-- With fuel at least `n`, `natBytes` yields all the digits: the bytes denote `n`. -/
theorem bytesValue_natBytes (fuel n : Nat) (h : n ≤ fuel) :
    bytesValue (natBytes fuel n) = (n : Int) := by
  induction fuel generalizing n with
  | zero =>
    have : n = 0 := by omega
    subst this
    rfl
  | succ fuel ih =>
    unfold natBytes
    by_cases hn : n = 0
    · subst hn
      rfl
    · rw [if_neg hn, bytesValue_append_singleton, ih (n / 256) (by omega)]
      simp only [Nat.cast_ofNat]
      omega

/-- The bytes of `(*big.Int).Bytes` denote the absolute value. -/
theorem bytesValue_bigBytes (x : Int) : bytesValue (bigBytes x) = (x.natAbs : Int) :=
  bytesValue_natBytes x.natAbs x.natAbs (Nat.le_refl _)

/-- The bytes of `(*big.Int).Bytes` have no leading zero byte. -/
theorem natBytes_head_ne_zero (fuel n : Nat) (h : n ≤ fuel) :
    (natBytes fuel n).head? ≠ some 0 := by
  induction fuel generalizing n with
  | zero => simp [natBytes]
  | succ fuel ih =>
    unfold natBytes
    by_cases hn : n = 0
    · simp [hn]
    · rw [if_neg hn]
      by_cases hq : n / 256 = 0
      · rw [hq]
        have hnil : natBytes fuel 0 = [] := by cases fuel <;> simp [natBytes]
        rw [hnil]
        simp only [List.nil_append, List.head?_cons, ne_eq, Option.some.injEq]
        intro h0
        have h1 : n % 256 = 0 := congrArg Fin.val h0
        omega
      · have hne : natBytes fuel (n / 256) ≠ [] := by
          cases fuel with
          | zero => omega
          | succ f => simp [natBytes, hq]
        rw [List.head?_append_of_ne_nil _ hne]
        exact ih (n / 256) (by omega)

/-! ## Lemmas on the validator loop -/

theorem validateLoop_eq_false_iff (k : List Byte) (table : List (List Byte)) :
    validateLoop k table = false ↔ k ∈ table := by
  induction table with
  | nil => simp [validateLoop]
  | cons t rest ih =>
    unfold validateLoop
    by_cases h : ConstantTimeCompare k t = 1
    · rw [if_pos h]
      simp [(ConstantTimeCompare_eq_one_iff k t).mp h]
    · rw [if_neg h, ih]
      have hne : k ≠ t := fun e => h ((ConstantTimeCompare_eq_one_iff k t).mpr e)
      simp [hne]

theorem validatePublicKey_eq_false_iff (k : List Byte) :
    validatePublicKey k = false ↔ k ∈ forbiddenCurveValues :=
  validateLoop_eq_false_iff k forbiddenCurveValues

theorem validateLoopCount_fst (k : List Byte) (table : List (List Byte)) (n : Nat) :
    (validateLoopCount k table n).1 = validateLoop k table := by
  induction table generalizing n with
  | nil => rfl
  | cons t rest ih =>
    unfold validateLoopCount validateLoop
    by_cases h : ConstantTimeCompare k t = 1
    · simp [h]
    · simp [h, ih]

/-! ## Lemmas on the import of a Curve25519 key -/

theorem forbiddenCurveValues_length_eq (e : List Byte) (he : e ∈ forbiddenCurveValues) :
    e.length = 32 := by
  have h : ∀ t ∈ forbiddenCurveValues, t.length = 32 := by decide
  exact h e he

theorem copyLoop_getElem? (src : List Byte) (n i : Nat) (dst : Bytes32)
    (hsrc : i + n ≤ src.length) (hdst : i + n ≤ 32) :
    ∃ r, copyLoop src i n dst = some r ∧
      ∀ j, r.data[j]? = if i ≤ j ∧ j < i + n then src[j]? else dst.data[j]? := by
  induction n generalizing i dst with
  | zero =>
    refine ⟨dst, rfl, fun j => ?_⟩
    rw [if_neg (by omega)]
  | succ n ih =>
    have hi : i < src.length := by omega
    obtain ⟨r, hr, hget⟩ := ih (i + 1) (dst.set i src[i]) (by omega) (by omega)
    refine ⟨r, ?_, fun j => ?_⟩
    · rw [copyLoop, List.getElem?_eq_getElem hi]
      exact hr
    · rw [hget j]
      by_cases hj : i + 1 ≤ j ∧ j < i + 1 + n
      · rw [if_pos hj, if_pos (by omega)]
      · rw [if_neg hj]
        by_cases hji : j = i
        · subst hji
          have hlt : j < dst.data.length := by rw [dst.size]; omega
          rw [if_pos (by omega)]
          simp [Bytes32.set, List.getElem?_set_self, hlt, List.getElem?_eq_getElem hi]
        · rw [if_neg (by omega)]
          simp only [Bytes32.set]
          rw [List.getElem?_set_ne (fun h => hji h.symm)]

/-- With a source of exactly 32 bytes the copy loop never reads out of range and
leaves the destination equal to the source. -/
theorem copyLoop_full (src : List Byte) (hsrc : src.length = 32) (dst : Bytes32) :
    copyLoop src 0 32 dst = some ⟨src, hsrc⟩ := by
  obtain ⟨r, hr, hget⟩ := copyLoop_getElem? src 32 0 dst (by omega) (by omega)
  rw [hr]
  have hdata : r.data = src := by
    apply List.ext_getElem?
    intro j
    rw [hget j]
    by_cases hj : j < 32
    · rw [if_pos (by omega)]
    · rw [if_neg (by omega)]
      rw [List.getElem?_eq_none (by rw [dst.size]; omega),
        List.getElem?_eq_none (by rw [hsrc]; omega)]
  cases r with
  | mk d hd =>
    simp only at hdata
    subst hdata
    rfl

/-- A closed form of the Curve25519 import: the four ways out in the order of the
source, without the copy loop. -/
theorem Curve25519DhKeypair.ImportPublicKey_eq (c : Curve25519DhKeypair) (proto : PublicKey) :
    c.ImportPublicKey proto =
      if c.curve ≠ Curve25519 ∨ proto.CurveType ≠ PublicKey_Curve25519 then
        some (c, some Err.WrongCurveType)
      else if h : proto.PublicKeyData.length = 32 then
        if validatePublicKey proto.PublicKeyData = false then
          some (c, some Err.PublicKeyVerificationError)
        else some ({ c with publicKey := ⟨proto.PublicKeyData, h⟩ }, none)
      else some (c, some Err.PublicKeyLengthError) := by
  unfold Curve25519DhKeypair.ImportPublicKey
  by_cases htag : c.curve ≠ Curve25519 ∨ proto.CurveType ≠ PublicKey_Curve25519
  · rw [if_pos htag, if_pos htag]
  · rw [if_neg htag, if_neg htag]
    simp only [c.publicKey.size]
    by_cases hlen : proto.PublicKeyData.length = 32
    · rw [if_neg (by simpa using hlen), dif_pos hlen]
      cases hv : validatePublicKey proto.PublicKeyData
      · simp
      · simp [copyLoop_full proto.PublicKeyData hlen]
    · rw [if_pos hlen, dif_neg hlen]

/-- A keypair that `NewCurve25519DhKeypair` returns has the curve field
`Curve25519`, a public key the validator accepts, and that public key is the
base-point multiple of its private key. -/
theorem NewCurve25519DhKeypair_spec (E : Provider) (draws : List (Option Bytes32))
    (K : Curve25519DhKeypair) (h : NewCurve25519DhKeypair E draws = some K) :
    K.curve = Curve25519 ∧ validatePublicKey K.publicKey.data = true ∧
      K.publicKey = E.Curve25519ScalarBaseMult K.privateKey := by
  induction draws with
  | nil => simp [NewCurve25519DhKeypair] at h
  | cons d rest ih =>
    cases d with
    | none => simp [NewCurve25519DhKeypair] at h
    | some priv =>
      simp only [NewCurve25519DhKeypair] at h
      by_cases hv : validatePublicKey (E.Curve25519ScalarBaseMult priv).data = true
      · rw [if_pos hv] at h
        injection h with h
        subst h
        exact ⟨rfl, hv, rfl⟩
      · rw [if_neg hv] at h
        exact ih h

/-! ## Tag, length and degenerate-value enforcement; round trip; frame -/

/-- C1: A Curve25519 keypair (curve field `Curve25519`) that imports a
Curve25519-tagged message whose payload is any of the 12 entries of the
forbidden-value table returns `PublicKeyVerificationError`, no other error
and not success, and the keypair is left as it was. -/
theorem C1_forbidden_entry_import_fails (c : Curve25519DhKeypair) (e : List Byte)
    (hc : c.curve = Curve25519) (he : e ∈ forbiddenCurveValues) :
    forbiddenCurveValues.length = 12 ∧
      c.ImportPublicKey { CurveType := PublicKey_Curve25519, PublicKeyData := e } =
        some (c, some Err.PublicKeyVerificationError) := by
  refine ⟨by decide, ?_⟩
  rw [Curve25519DhKeypair.ImportPublicKey_eq]
  have hlen := forbiddenCurveValues_length_eq e he
  have hv : validatePublicKey e = false := (validatePublicKey_eq_false_iff e).mpr he
  simp [hc, hlen, hv]

/-- C1 at the payload of the test: 32 zero bytes imported into a zeroed keypair. -/
theorem C1_forbidden_entry_import_fails_witness :
    forbiddenCurveValues.length = 12 ∧
      Curve25519DhKeypair.ImportPublicKey
          { curve := Curve25519, privateKey := Bytes32.zero, publicKey := Bytes32.zero }
          { CurveType := PublicKey_Curve25519, PublicKeyData := List.replicate 32 0 } =
        some ({ curve := Curve25519, privateKey := Bytes32.zero, publicKey := Bytes32.zero },
          some Err.PublicKeyVerificationError) :=
  C1_forbidden_entry_import_fails
    { curve := Curve25519, privateKey := Bytes32.zero, publicKey := Bytes32.zero }
    (List.replicate 32 0) rfl (by decide)

/-- C2: Round trip for Curve25519. When `K` has a public key the validator accepts
(as every generated keypair has, see `NewCurve25519DhKeypair_spec`) and `F`
has the curve field `Curve25519`, importing the export of `K` into `F` returns
no error and leaves `F` with the public key of `K`, byte for byte, and with
its other fields as before. The export is tagged `Curve25519` whatever the
curve field of `K`, so that field needs no assumption. -/
theorem C2_curve25519_round_trip (K F : Curve25519DhKeypair)
    (hv : validatePublicKey K.publicKey.data = true) (hF : F.curve = Curve25519) :
    F.ImportPublicKey K.ExportPublicKey = some ({ F with publicKey := K.publicKey }, none) := by
  rw [Curve25519DhKeypair.ImportPublicKey_eq]
  simp [Curve25519DhKeypair.ExportPublicKey, hF, K.publicKey.size, hv]

/-- C2 at the key `9, 0, ..., 0` imported into a zeroed keypair. -/
theorem C2_curve25519_round_trip_witness :
    Curve25519DhKeypair.ImportPublicKey
        { curve := Curve25519, privateKey := Bytes32.zero, publicKey := Bytes32.zero }
        (Curve25519DhKeypair.ExportPublicKey
          { curve := Curve25519, privateKey := Bytes32.single 7, publicKey := Bytes32.single 9 }) =
      some ({ curve := Curve25519, privateKey := Bytes32.zero, publicKey := Bytes32.single 9 },
        none) :=
  C2_curve25519_round_trip
    { curve := Curve25519, privateKey := Bytes32.single 7, publicKey := Bytes32.single 9 }
    { curve := Curve25519, privateKey := Bytes32.zero, publicKey := Bytes32.zero }
    (by decide) rfl

/-- C4: Tag enforcement, whatever the payload. The P-256 import returns
`WrongCurveType` when the message tag is not `P256` or the keypair's curve is
not P-256; the Curve25519 import returns `WrongCurveType` when the keypair's
curve field is not `Curve25519` or the message tag is not `Curve25519`. In
both cases the keypair is left as it was. -/
theorem C4_tag_enforcement (E : Provider) (p : P256DhKeypair) (c : Curve25519DhKeypair)
    (proto : PublicKey) :
    ((proto.CurveType ≠ PublicKey_P256 ∨ p.curve ≠ Curve.P256) →
        p.ImportPublicKey E proto = (p, some Err.WrongCurveType)) ∧
      ((c.curve ≠ Curve25519 ∨ proto.CurveType ≠ PublicKey_Curve25519) →
        c.ImportPublicKey proto = some (c, some Err.WrongCurveType)) := by
  constructor
  · intro h
    unfold P256DhKeypair.ImportPublicKey
    rw [if_pos h]
  · intro h
    unfold Curve25519DhKeypair.ImportPublicKey
    rw [if_pos h]

/-- C4 at the keypairs of the tests: a keypair on P-521 importing a `P256`-tagged
message, and a keypair with the curve field `P256` importing a
`Curve25519`-tagged message. -/
theorem C4_tag_enforcement_witness :
    P256DhKeypair.ImportPublicKey sampleProvider
          { curve := Curve.P521, privateKey := none, publicKey := none }
          { CurveType := PublicKey_P256, PublicKeyData := [2, 3] } =
        ({ curve := Curve.P521, privateKey := none, publicKey := none },
          some Err.WrongCurveType) ∧
      Curve25519DhKeypair.ImportPublicKey
          { curve := P256, privateKey := Bytes32.zero, publicKey := Bytes32.zero }
          { CurveType := PublicKey_Curve25519, PublicKeyData := (Bytes32.single 9).data } =
        some ({ curve := P256, privateKey := Bytes32.zero, publicKey := Bytes32.zero },
          some Err.WrongCurveType) :=
  ⟨(C4_tag_enforcement sampleProvider
      { curve := Curve.P521, privateKey := none, publicKey := none }
      { curve := P256, privateKey := Bytes32.zero, publicKey := Bytes32.zero }
      { CurveType := PublicKey_P256, PublicKeyData := [2, 3] }).1 (Or.inr (by decide)),
    (C4_tag_enforcement sampleProvider
      { curve := Curve.P521, privateKey := none, publicKey := none }
      { curve := P256, privateKey := Bytes32.zero, publicKey := Bytes32.zero }
      { CurveType := PublicKey_Curve25519, PublicKeyData := (Bytes32.single 9).data }).2
      (Or.inl (by decide))⟩

/-- C5: Length enforcement. A Curve25519 keypair (curve field `Curve25519`) that
imports a Curve25519-tagged message whose payload is not exactly 32 bytes long
returns `PublicKeyLengthError` and is left as it was; and on no keypair and
no message does the import read the payload out of range (it never panics). -/
theorem C5_length_enforcement (c : Curve25519DhKeypair) (proto : PublicKey) :
    (c.ImportPublicKey proto).isSome = true ∧
      (c.curve = Curve25519 → proto.CurveType = PublicKey_Curve25519 →
        proto.PublicKeyData.length ≠ 32 →
        c.ImportPublicKey proto = some (c, some Err.PublicKeyLengthError)) := by
  constructor
  · rw [Curve25519DhKeypair.ImportPublicKey_eq]
    split_ifs <;> rfl
  · intro hc ht hl
    rw [Curve25519DhKeypair.ImportPublicKey_eq]
    simp [hc, ht, hl]

/-- C5 at a payload of 27 bytes, the length used by the test. -/
theorem C5_length_enforcement_witness :
    Curve25519DhKeypair.ImportPublicKey
        { curve := Curve25519, privateKey := Bytes32.zero, publicKey := Bytes32.zero }
        { CurveType := PublicKey_Curve25519, PublicKeyData := List.replicate 27 5 } =
      some ({ curve := Curve25519, privateKey := Bytes32.zero, publicKey := Bytes32.zero },
        some Err.PublicKeyLengthError) :=
  (C5_length_enforcement
    { curve := Curve25519, privateKey := Bytes32.zero, publicKey := Bytes32.zero }
    { CurveType := PublicKey_Curve25519, PublicKeyData := List.replicate 27 5 }).2
    rfl rfl (by decide)

/-- C7: Frame of the import, for both variants, every keypair and every message.
The call returns; afterwards the private key and the curve field are as
before; and when the call returns an error the public key is as before too. -/
theorem C7_import_frame (E : Provider) (p : P256DhKeypair) (c : Curve25519DhKeypair)
    (proto : PublicKey) :
    ((p.ImportPublicKey E proto).1.privateKey = p.privateKey ∧
        (p.ImportPublicKey E proto).1.curve = p.curve ∧
        ((p.ImportPublicKey E proto).2 ≠ none →
          (p.ImportPublicKey E proto).1.publicKey = p.publicKey)) ∧
      ∃ c2 err, c.ImportPublicKey proto = some (c2, err) ∧
        c2.privateKey = c.privateKey ∧ c2.curve = c.curve ∧
        (err ≠ none → c2.publicKey = c.publicKey) := by
  constructor
  · unfold P256DhKeypair.ImportPublicKey
    split_ifs
    · simp
    · split <;> simp
  · rw [Curve25519DhKeypair.ImportPublicKey_eq]
    split_ifs
    · exact ⟨c, _, rfl, rfl, rfl, fun _ => rfl⟩
    · exact ⟨c, _, rfl, rfl, rfl, fun _ => rfl⟩
    · exact ⟨_, _, rfl, rfl, rfl, fun h => absurd rfl h⟩
    · exact ⟨c, _, rfl, rfl, rfl, fun _ => rfl⟩

/-- C7 at a failing import: a P-256 keypair holding a public key that imports a
payload which does not decompress keeps that public key. -/
theorem C7_import_frame_witness :
    (P256DhKeypair.ImportPublicKey sampleProvider
        { curve := Curve.P256, privateKey := none,
          publicKey := some { Curve := Curve.P256, X := 3, Y := 6 } }
        { CurveType := PublicKey_P256, PublicKeyData := [7] }).1.publicKey =
      some { Curve := Curve.P256, X := 3, Y := 6 } :=
  (C7_import_frame sampleProvider
    { curve := Curve.P256, privateKey := none,
      publicKey := some { Curve := Curve.P256, X := 3, Y := 6 } }
    { curve := Curve25519, privateKey := Bytes32.zero, publicKey := Bytes32.zero }
    { CurveType := PublicKey_P256, PublicKeyData := [7] }).1.2.2 (by decide)

/-- C9: The validator decides exact table membership. For every byte string `k`,
`validatePublicKey k` is `false` exactly when `k` equals one of the 12 table
entries; every input whose length is not 32 is accepted. -/
theorem C9_validator_is_table_membership (k : List Byte) :
    forbiddenCurveValues.length = 12 ∧
      (validatePublicKey k = false ↔ k ∈ forbiddenCurveValues) ∧
      (k.length ≠ 32 → validatePublicKey k = true) := by
  refine ⟨by decide, validatePublicKey_eq_false_iff k, fun hl => ?_⟩
  cases hv : validatePublicKey k
  · exact absurd (forbiddenCurveValues_length_eq k ((validatePublicKey_eq_false_iff k).mp hv)) hl
  · rfl

/-- C9 at the empty byte string, which is accepted. -/
theorem C9_validator_is_table_membership_witness : validatePublicKey [] = true :=
  (C9_validator_is_table_membership []).2.2 (by decide)

/-! ## Shared secrets -/

theorem zipWith_mul_left_comm (a b g : List Byte) :
    List.zipWith (· * ·) a (List.zipWith (· * ·) b g) =
      List.zipWith (· * ·) b (List.zipWith (· * ·) a g) := by
  induction a generalizing b g with
  | nil => cases b <;> cases g <;> simp
  | cons x xs ih =>
    cases b with
    | nil => simp
    | cons y ys =>
      cases g with
      | nil => simp
      | cons z zs =>
        simp only [List.zipWith_cons_cons, ih ys zs, mul_left_comm x y z]

theorem sampleProvider_commutes : sampleProvider.ScalarMultCommutes := by
  constructor
  · intro a b
    simp only [sampleProvider]
    ext <;> simp <;> ring
  · intro a b
    simp only [sampleProvider]
    rw [zipWith_mul_left_comm]

/-- The keypair `NewP256DhKeypair` builds satisfies `isGenerated`. -/
theorem NewP256DhKeypair_isGenerated (E : Provider) (d : Int) :
    (NewP256DhKeypair E d).isGenerated E = true := by
  simp [NewP256DhKeypair, P256DhKeypair.isGenerated]

/-- A closed form of the P-256 shared secret when the peer key is on the keypair's
curve and the private key is present. -/
theorem P256DhKeypair.ComputeSharedSecret_eq (E : Provider) (p : P256DhKeypair)
    (priv : EcdsaPrivateKey) (publicKey : EcdsaPublicKey)
    (hcurve : publicKey.Curve = p.curve) (hpriv : p.privateKey = some priv) :
    p.ComputeSharedSecret E publicKey =
      some (List.replicate 32 0 ++
        (E.Sum256 (bigBytes
          (E.ScalarMult publicKey.Curve publicKey.X publicKey.Y (bigBytes priv.D)).1)).data) := by
  simp [P256DhKeypair.ComputeSharedSecret, hcurve, hpriv]

/-- C3: Symmetry of the shared secret, for both variants, given that the scalar
multiplication of the curve arithmetic commutes. For P-256 keypairs `A`, `B`
as generation leaves them, `A.ComputeSharedSecret` on the public key of `B`
and `B.ComputeSharedSecret` on the public key of `A` both return, and return
the same bytes. For Curve25519 keypairs `X`, `Y` whose public key is the
base-point multiple of their private key, the two calls return the same
bytes and the same error flag. -/
theorem C3_shared_secret_symmetry (E : Provider) (hE : E.ScalarMultCommutes)
    (A B : P256DhKeypair) (pa pb : EcdsaPublicKey)
    (hA : A.isGenerated E = true) (hB : B.isGenerated E = true)
    (hpa : A.GetPublicKey = some pa) (hpb : B.GetPublicKey = some pb)
    (X Y : Curve25519DhKeypair)
    (hX : X.isGenerated E = true) (hY : Y.isGenerated E = true) :
    (∃ s, A.ComputeSharedSecret E pb = some s ∧ B.ComputeSharedSecret E pa = some s) ∧
      X.ComputeSharedSecret E Y.GetPublicKey = Y.ComputeSharedSecret E X.GetPublicKey := by
  obtain ⟨hP, hC⟩ := hE
  constructor
  · obtain ⟨ac, apriv, apub⟩ := A
    obtain ⟨bc, bpriv, bpub⟩ := B
    cases apriv with
    | none => simp [P256DhKeypair.isGenerated] at hA
    | some da =>
      cases bpriv with
      | none => simp [P256DhKeypair.isGenerated] at hB
      | some db =>
        simp only [P256DhKeypair.GetPublicKey] at hpa hpb
        subst hpa hpb
        simp only [P256DhKeypair.isGenerated, Bool.and_eq_true, decide_eq_true_eq] at hA hB
        obtain ⟨⟨hac, hpac⟩, hapt⟩ := hA
        obtain ⟨⟨hbc, hpbc⟩, hbpt⟩ := hB
        have hax : pa.X = (E.ScalarBaseMult Curve.P256 (bigBytes da.D)).1 :=
          congrArg Prod.fst hapt
        have hay : pa.Y = (E.ScalarBaseMult Curve.P256 (bigBytes da.D)).2 :=
          congrArg Prod.snd hapt
        have hbx : pb.X = (E.ScalarBaseMult Curve.P256 (bigBytes db.D)).1 :=
          congrArg Prod.fst hbpt
        have hby : pb.Y = (E.ScalarBaseMult Curve.P256 (bigBytes db.D)).2 :=
          congrArg Prod.snd hbpt
        rw [P256DhKeypair.ComputeSharedSecret_eq E _ da pb (by rw [hpbc, hac]) rfl,
          P256DhKeypair.ComputeSharedSecret_eq E _ db pa (by rw [hpac, hbc]) rfl]
        refine ⟨_, rfl, ?_⟩
        rw [hpac, hpbc, hax, hay, hbx, hby, hP (bigBytes db.D) (bigBytes da.D)]
  · simp only [Curve25519DhKeypair.isGenerated, decide_eq_true_eq] at hX hY
    simp only [Curve25519DhKeypair.ComputeSharedSecret, Curve25519DhKeypair.GetPublicKey, hX, hY]
    exact hC X.privateKey Y.privateKey

/-- C3 on the sample arithmetic: P-256 scalars 3 and 5, Curve25519 private keys
`7, 0, ...` and `11, 0, ...`. -/
theorem C3_shared_secret_symmetry_witness :
    (∃ s,
        (NewP256DhKeypair sampleProvider 3).ComputeSharedSecret sampleProvider
            { Curve := Curve.P256, X := 5, Y := 10 } = some s ∧
          (NewP256DhKeypair sampleProvider 5).ComputeSharedSecret sampleProvider
            { Curve := Curve.P256, X := 3, Y := 6 } = some s) ∧
      Curve25519DhKeypair.ComputeSharedSecret sampleProvider
          { curve := Curve25519, privateKey := Bytes32.single 7, publicKey := Bytes32.single 63 }
          (Curve25519DhKeypair.GetPublicKey
            { curve := Curve25519, privateKey := Bytes32.single 11,
              publicKey := Bytes32.single 99 }) =
        Curve25519DhKeypair.ComputeSharedSecret sampleProvider
          { curve := Curve25519, privateKey := Bytes32.single 11, publicKey := Bytes32.single 99 }
          (Curve25519DhKeypair.GetPublicKey
            { curve := Curve25519, privateKey := Bytes32.single 7,
              publicKey := Bytes32.single 63 }) :=
  C3_shared_secret_symmetry sampleProvider sampleProvider_commutes
    (NewP256DhKeypair sampleProvider 3) (NewP256DhKeypair sampleProvider 5)
    { Curve := Curve.P256, X := 3, Y := 6 } { Curve := Curve.P256, X := 5, Y := 10 }
    (by decide) (by decide) (by decide) (by decide)
    { curve := Curve25519, privateKey := Bytes32.single 7, publicKey := Bytes32.single 63 }
    { curve := Curve25519, privateKey := Bytes32.single 11, publicKey := Bytes32.single 99 }
    (by decide) (by decide)

/-- C6: What the code returns where the claim says the 32-byte digest. For every
keypair with a private key and every peer key on the keypair's curve,
`ComputeSharedSecret` returns 64 bytes: 32 zero bytes followed by the SHA-256
digest of the big-endian x-coordinate of (own private scalar × peer point). -/
theorem C6_p256_shared_secret_has_64_bytes (E : Provider) (curve : Curve)
    (priv : EcdsaPrivateKey) (own : Option EcdsaPublicKey) (X Y : Int) :
    P256DhKeypair.ComputeSharedSecret E
        { curve := curve, privateKey := some priv, publicKey := own }
        { Curve := curve, X := X, Y := Y } =
      some (List.replicate 32 0 ++
        (E.Sum256 (bigBytes (E.ScalarMult curve X Y (bigBytes priv.D)).1)).data) ∧
      (List.replicate 32 (0 : Byte) ++
        (E.Sum256 (bigBytes (E.ScalarMult curve X Y (bigBytes priv.D)).1)).data).length = 64 := by
  constructor
  · exact P256DhKeypair.ComputeSharedSecret_eq E _ priv _ rfl rfl
  · simp [(E.Sum256 _).size]

/-! ## The number of comparisons and the boundary encodings -/

theorem validateLoopCount_of_accept (k : List Byte) (table : List (List Byte)) (n : Nat)
    (h : validateLoop k table = true) :
    validateLoopCount k table n = (true, n + table.length) := by
  induction table generalizing n with
  | nil => rfl
  | cons t rest ih =>
    unfold validateLoop at h
    unfold validateLoopCount
    by_cases hc : ConstantTimeCompare k t = 1
    · rw [if_pos hc] at h
      exact absurd h (by decide)
    · rw [if_neg hc] at h
      rw [if_neg hc, ih (n + 1) h, List.length_cons]
      congr 1
      omega

/-- C8, the claim at a concrete pair: two inputs of the same length 32, the
all-zero key and the key `2, 0, ..., 0`; the validator makes 1 comparison on
the first and 12 on the second. -/
theorem C8_comparison_count_counterexample :
    (List.replicate 32 (0 : Byte)).length = ((2 : Byte) :: List.replicate 31 0).length ∧
      (validatePublicKeyCount (List.replicate 32 0)).2 = 1 ∧
      (validatePublicKeyCount (2 :: List.replicate 31 0)).2 = 12 := by
  decide

/-- C8 as the code has it: the validator compares the candidate with the table
entries in order and stops at the first match. The counting loop returns the
verdict of `validatePublicKey`; an accepted input costs all 12 comparisons;
the input equal to the entry at index `i` (from 0) is rejected after `i + 1`. -/
theorem C8_comparisons_stop_at_first_match (k : List Byte) :
    (validatePublicKeyCount k).1 = validatePublicKey k ∧
      (validatePublicKey k = true → validatePublicKeyCount k = (true, 12)) ∧
      ∀ i : Fin 12,
        validatePublicKeyCount (forbiddenCurveValues.getD i.val []) = (false, i.val + 1) := by
  refine ⟨validateLoopCount_fst k forbiddenCurveValues 0, fun h => ?_, by decide⟩
  have := validateLoopCount_of_accept k forbiddenCurveValues 0 h
  simpa [validatePublicKeyCount] using this

/-- C8 as the code has it, at the accepted key `9, 0, ..., 0`. -/
theorem C8_comparisons_stop_at_first_match_witness :
    validatePublicKeyCount (Bytes32.single 9).data = (true, 12) :=
  (C8_comparisons_stop_at_first_match (Bytes32.single 9).data).2.1 (by decide)

/-- C10: On the boundary encodings, with `p = 2^255 - 19`: the validator rejects the
32-byte little-endian encodings of 0, 1, p-1, p, p+1, 2p-1 and 2p, and it
accepts the encoding of 2p+1, which is `219, 255, ..., 255`; the last table
entry differs from it in the final byte, `25` for `255`. -/
theorem C10_boundary_encodings :
    validatePublicKey (littleEndian32 0) = false ∧
      validatePublicKey (littleEndian32 1) = false ∧
      validatePublicKey (littleEndian32 (p25519 - 1)) = false ∧
      validatePublicKey (littleEndian32 p25519) = false ∧
      validatePublicKey (littleEndian32 (p25519 + 1)) = false ∧
      validatePublicKey (littleEndian32 (2 * p25519 - 1)) = false ∧
      validatePublicKey (littleEndian32 (2 * p25519)) = false ∧
      littleEndian32 (2 * p25519 + 1) = 219 :: List.replicate 31 255 ∧
      validatePublicKey (littleEndian32 (2 * p25519 + 1)) = true ∧
      forbiddenCurveValues.getLast? = some (219 :: (List.replicate 30 255 ++ [25])) := by
  decide

end DioneCrypto
